import Mathlib

/-!
Shallow embedding of the fb_messenger_assignment storage/query core.

The embedding follows the repository sources:
  * `src/scripts/setup_db.py` — the Cassandra table schemas
    (`messages_by_conversation` partitioned by `conversation_id` and clustered by
    `message_timestamp DESC`; `conversations_by_user` partitioned by `user_id` and
    clustered by `last_message_timestamp DESC`).
  * `src/app/models/cassandra_models.py` — `MessageModel.create_message`,
    `MessageModel.get_conversation_messages`, `MessageModel.get_messages_before_timestamp`,
    `ConversationModel.create_or_get_conversation`.
  * `src/app/controllers/message_controller.py` — `MessageController.send_message`,
    `MessageController.get_conversation_messages`.

Python values are modelled by an explicit `Value` type (so that `kwargs.get` returning
`None` and dictionary key errors are representable); Cassandra partitions are association
lists from partition key to the list of rows kept in clustering (descending-timestamp)
order; a write is an upsert keyed by the clustering column, exactly as Cassandra treats
an `INSERT` on an existing primary key.  UUIDs are modelled as 128-bit naturals and
timestamps as naturals; `uuid.uuid5` is implemented bit-for-bit (SHA-1 based, RFC 4122).
-/

namespace FbMessenger

/-- Python runtime values that flow through the model layer: `None`, integers,
UUID objects, datetime values and strings.  UUIDs and datetimes are carried as
naturals (a UUID is its 128-bit integer value). -/
inductive Value where
  | vNone : Value
  | vNat (n : Nat) : Value
  | vUuid (n : Nat) : Value
  | vTime (t : Nat) : Value
  | vStr (s : String) : Value
  deriving DecidableEq, Repr

/-- Hex digit character (lower case), as used by `str(uuid.UUID)`. -/
def hexDigit (n : Nat) : Char :=
  if n < 10 then Char.ofNat (48 + n) else Char.ofNat (87 + n)

/-- Fixed-width big-endian hex rendering of a natural. -/
def toHexFixed : Nat → Nat → List Char
  | 0, _ => []
  | w + 1, v => toHexFixed w (v / 16) ++ [hexDigit (v % 16)]

/-- `str()` of a 128-bit UUID value: the canonical 8-4-4-4-12 form. -/
def uuidToString (n : Nat) : String :=
  String.mk (toHexFixed 8 (n >>> 96)
    ++ '-' :: toHexFixed 4 ((n >>> 80) % 65536)
    ++ '-' :: toHexFixed 4 ((n >>> 64) % 65536)
    ++ '-' :: toHexFixed 4 ((n >>> 48) % 65536)
    ++ '-' :: toHexFixed 12 (n % 281474976710656))

/-- Python `str()` on the modelled values (UUID and datetime rendering is the
canonical hex form resp. the numeral; only identity of the result matters to the
claims, never its parse). -/
def pyStr : Value → String
  | .vNone => "None"
  | .vNat n => toString n
  | .vUuid n => uuidToString n
  | .vTime t => toString t
  | .vStr s => s

/-- Python dictionary lookup `d[k]`, `none` when the key is absent (a `KeyError`). -/
def dictGet : List (String × Value) → String → Option Value
  | [], _ => none
  | (k, v) :: rest, key => if k = key then some v else dictGet rest key

/-! ## SHA-1 and `uuid.uuid5`, as used by `ConversationModel.create_or_get_conversation` -/

/-- 32-bit left rotation. -/
def rotl (b n : Nat) : Nat :=
  ((n <<< b) ||| (n >>> (32 - b))) % 4294967296

/-- UTF-8 bytes of one character. -/
def charBytes (c : Char) : List Nat :=
  let n := c.toNat
  if n < 128 then [n]
  else if n < 2048 then [192 ||| (n >>> 6), 128 ||| (n &&& 63)]
  else if n < 65536 then
    [224 ||| (n >>> 12), 128 ||| ((n >>> 6) &&& 63), 128 ||| (n &&& 63)]
  else
    [240 ||| (n >>> 18), 128 ||| ((n >>> 12) &&& 63),
     128 ||| ((n >>> 6) &&& 63), 128 ||| (n &&& 63)]

/-- UTF-8 encoding of a string (Python `bytes(name, "utf-8")`). -/
def strBytes (s : String) : List Nat :=
  s.data.foldr (fun c acc => charBytes c ++ acc) []

/-- SHA-1 padding: append `0x80`, zero bytes to 56 mod 64, then the bit length
as eight big-endian bytes. -/
def padMessage (msg : List Nat) : List Nat :=
  let bitLen := msg.length * 8
  let zeros := (119 - msg.length % 64) % 64
  msg ++ [128] ++ List.replicate zeros 0
      ++ [7, 6, 5, 4, 3, 2, 1, 0].map (fun i => (bitLen >>> (8 * i)) % 256)

/-- Split a byte list into 64-byte chunks (fuel-driven structural recursion). -/
def toChunks : Nat → List Nat → List (List Nat)
  | 0, _ => []
  | _, [] => []
  | fuel + 1, l => l.take 64 :: toChunks fuel (l.drop 64)

/-- Big-endian 32-bit words of a 64-byte chunk. -/
def toWords : List Nat → List Nat
  | b0 :: b1 :: b2 :: b3 :: rest =>
      (b0 * 16777216 + b1 * 65536 + b2 * 256 + b3) :: toWords rest
  | _ => []

/-- Extend the 16 schedule words to 80; `rev` holds the words most recent first. -/
def extendW : Nat → List Nat → List Nat
  | 0, rev => rev
  | k + 1, rev =>
      let nw := rotl 1 (((rev.getD 2 0) ^^^ (rev.getD 7 0))
                        ^^^ ((rev.getD 13 0) ^^^ (rev.getD 15 0)))
      extendW k (nw :: rev)

/-- The 80-word message schedule of one chunk. -/
def sha1Schedule (chunk : List Nat) : List Nat :=
  (extendW 64 (toWords chunk).reverse).reverse

/-- SHA-1 working state. -/
structure Sha1State where
  a : Nat
  b : Nat
  c : Nat
  d : Nat
  e : Nat
  deriving DecidableEq, Repr

/-- Round function `f` of SHA-1. -/
def sha1F (i b c d : Nat) : Nat :=
  if i < 20 then (b &&& c) ||| ((4294967295 ^^^ b) &&& d)
  else if i < 40 then (b ^^^ c) ^^^ d
  else if i < 60 then ((b &&& c) ||| (b &&& d)) ||| (c &&& d)
  else (b ^^^ c) ^^^ d

/-- Round constant `k` of SHA-1. -/
def sha1K (i : Nat) : Nat :=
  if i < 20 then 1518500249
  else if i < 40 then 1859775393
  else if i < 60 then 2400959708
  else 3395469782

/-- One SHA-1 round. -/
def sha1Round (i w : Nat) (s : Sha1State) : Sha1State :=
  let temp := (rotl 5 s.a + sha1F i s.b s.c s.d + s.e + sha1K i + w) % 4294967296
  ⟨temp, s.a, rotl 30 s.b, s.c, s.d⟩

/-- Run the 80 rounds over the schedule words. -/
def sha1Rounds : Nat → List Nat → Sha1State → Sha1State
  | _, [], s => s
  | i, w :: ws, s => sha1Rounds (i + 1) ws (sha1Round i w s)

/-- Process one 64-byte chunk, adding the round output into the running state. -/
def processChunk (h : Sha1State) (chunk : List Nat) : Sha1State :=
  let s := sha1Rounds 0 (sha1Schedule chunk) h
  ⟨(h.a + s.a) % 4294967296, (h.b + s.b) % 4294967296, (h.c + s.c) % 4294967296,
   (h.d + s.d) % 4294967296, (h.e + s.e) % 4294967296⟩

/-- Big-endian bytes of a 32-bit word. -/
def wordBytes (w : Nat) : List Nat :=
  [(w >>> 24) % 256, (w >>> 16) % 256, (w >>> 8) % 256, w % 256]

/-- SHA-1 digest (20 bytes) of a byte list. -/
def sha1 (msg : List Nat) : List Nat :=
  let padded := padMessage msg
  let f := (toChunks padded.length padded).foldl processChunk
    ⟨1732584193, 4023233417, 2562383102, 271733878, 3285377520⟩
  wordBytes f.a ++ wordBytes f.b ++ wordBytes f.c ++ wordBytes f.d ++ wordBytes f.e

/-- The `uuid.NAMESPACE_DNS` bytes. -/
def NAMESPACE_DNS : List Nat :=
  [107, 167, 184, 16, 157, 173, 17, 209, 128, 180, 0, 192, 79, 212, 48, 200]

/-- `uuid.uuid5(namespace, name)` as a 128-bit natural: SHA-1 of namespace bytes
followed by the UTF-8 name, truncated to 16 bytes, with the RFC 4122 version-5
and variant bits set. -/
def uuid5 (ns : List Nat) (name : String) : Nat :=
  let d := (sha1 (ns ++ strBytes name)).take 16
  let bytes := d.take 6
      ++ [((d.getD 6 0) &&& 15) ||| 80]
      ++ [d.getD 7 0]
      ++ [((d.getD 8 0) &&& 63) ||| 128]
      ++ d.drop 9
  bytes.foldl (fun acc b => acc * 256 + b) 0

/-- Python character-list comparison: order by Unicode code point, equal characters
recurse, a proper prefix sorts first.  This is CPython's string `<`. -/
def pyCharsLt : List Char → List Char → Bool
  | [], [] => false
  | [], _ :: _ => true
  | _ :: _, [] => false
  | c1 :: r1, c2 :: r2 =>
    if c1.toNat < c2.toNat then true
    else if c2.toNat < c1.toNat then false
    else pyCharsLt r1 r2

/-- Python string comparison `a < b`. -/
def pyStrLt (a b : String) : Bool := pyCharsLt a.data b.data

/-- Python `sorted` on a two-element list of strings: ascending and stable, so the
pair is swapped exactly when the second string sorts strictly below the first. -/
def sort2 (a b : String) : String × String :=
  if pyStrLt b a then (b, a) else (a, b)

/-- The conversation-identity derivation of `ConversationModel.create_or_get_conversation`:
`uuid.uuid5(uuid.NAMESPACE_DNS, f"{sorted_ids[0]}-{sorted_ids[1]}")` over the
stringified, sorted participant ids. -/
def deriveConversationId (user1_id user2_id : String) : Nat :=
  let s := sort2 user1_id user2_id
  uuid5 NAMESPACE_DNS (s.1 ++ "-" ++ s.2)

/-! ## Table schemas from `src/scripts/setup_db.py`

`messages_by_conversation (conversation_id, message_timestamp, message_id, sender_id,
recipient_id, context)` with `PRIMARY KEY ((conversation_id), message_timestamp)` and
`CLUSTERING ORDER BY (message_timestamp DESC)` — note `message_id` is a regular column,
not part of the key.

`conversations_by_user (user_id, conversation_id, last_message_timestamp, participant_id,
last_message_preview)` with `PRIMARY KEY ((user_id), last_message_timestamp)` and
`CLUSTERING ORDER BY (last_message_timestamp DESC)` — note `conversation_id` is a regular
column, not part of the key. -/

/-- One row of `messages_by_conversation` inside its partition (the partition key
`conversation_id` is the association-list key of the table). -/
structure MessageRow where
  message_timestamp : Nat
  message_id : Nat
  sender_id : Value
  recipient_id : Value
  context : Value
  deriving DecidableEq, Repr

/-- One row of `conversations_by_user` inside its partition (the partition key
`user_id` is the association-list key of the table). -/
structure ConvUserRow where
  last_message_timestamp : Nat
  conversation_id : Value
  participant_id : Value
  last_message_preview : Value
  deriving DecidableEq, Repr

/-- A partitioned table: association list from partition key to the rows of that
partition, kept in clustering order (descending timestamp). -/
abbrev Table (ρ : Type) : Type := List (Value × List ρ)

/-- The rows of one partition (empty when the partition does not exist). -/
def partitionFor {ρ : Type} : Table ρ → Value → List ρ
  | [], _ => []
  | (k, p) :: rest, key => if k = key then p else partitionFor rest key

/-- Apply an update to one partition, creating it when absent. -/
def upsertPartition {ρ : Type} (key : Value) (f : List ρ → List ρ) : Table ρ → Table ρ
  | [] => [(key, f [])]
  | (k, p) :: rest =>
      if k = key then (k, f p) :: rest else (k, p) :: upsertPartition key f rest

/-- Cassandra write semantics within a partition whose single clustering column is the
timestamp `key`: rows are kept in descending key order, and an `INSERT` whose key
equals a stored row's key replaces that row in place (an upsert). -/
def insertRowBy {ρ : Type} (key : ρ → Nat) (r : ρ) : List ρ → List ρ
  | [] => [r]
  | x :: xs =>
      if key x < key r then r :: x :: xs
      else if key x = key r then r :: xs
      else x :: insertRowBy key r xs

/-- The two tables of the application. -/
structure DB where
  messages : Table MessageRow
  convByUser : Table ConvUserRow
  deriving Repr

/-- The empty database. -/
def emptyDB : DB := ⟨[], []⟩

/-! ## `MessageModel` (src/app/models/cassandra_models.py) -/

namespace MessageModel

/-- `MessageModel.create_message`: the three `INSERT`s (one into
`messages_by_conversation`, two fan-out rows into `conversations_by_user`, keyed per
schema by `(user_id, last_message_timestamp)`), and the returned dict.  The parameters
are exactly what `kwargs.get` yields at the call site (so a missing kwarg arrives as
`Value.vNone`); `msgId` and `ts` stand for the generated `uuid.uuid4()` and
`datetime.utcnow()`. -/
def create_message (db : DB) (conversation_id sender_id recipient_id context : Value)
    (msgId ts : Nat) : DB × List (String × Value) :=
  let row : MessageRow :=
    { message_timestamp := ts, message_id := msgId, sender_id := sender_id,
      recipient_id := recipient_id, context := context }
  let senderRow : ConvUserRow :=
    { last_message_timestamp := ts, conversation_id := conversation_id,
      participant_id := recipient_id, last_message_preview := context }
  let recipientRow : ConvUserRow :=
    { last_message_timestamp := ts, conversation_id := conversation_id,
      participant_id := sender_id, last_message_preview := context }
  let messages := upsertPartition conversation_id
    (insertRowBy MessageRow.message_timestamp row) db.messages
  let convByUser := upsertPartition recipient_id
    (insertRowBy ConvUserRow.last_message_timestamp recipientRow)
    (upsertPartition sender_id
      (insertRowBy ConvUserRow.last_message_timestamp senderRow) db.convByUser)
  (⟨messages, convByUser⟩,
   [("id", .vStr (pyStr (.vUuid msgId))),
    ("sender_id", .vStr (pyStr sender_id)),
    ("recipient_id", .vStr (pyStr recipient_id)),
    ("conversation_id", .vStr (pyStr conversation_id)),
    ("timestamp", .vTime ts),
    ("context", context),
    ("message_id", .vUuid msgId)])

/-- `MessageModel.get_conversation_messages`: `SELECT * FROM messages_by_conversation
WHERE conversation_id = %s LIMIT %s` — the partition scan in clustering order capped at
`limit`.  The `page` kwarg is received from the controller but never read. -/
def get_conversation_messages (db : DB) (conversation_id : Value)
    (page limit : Nat) : List MessageRow :=
  (partitionFor db.messages conversation_id).take limit

/-- `MessageModel.get_messages_before_timestamp`: `SELECT * FROM
messages_by_conversation WHERE conversation_id = %s AND message_timestamp < %s LIMIT %s`
— the strict upper bound on the clustering column, then the limit.  The `page` kwarg is
received from the controller but never read. -/
def get_messages_before_timestamp (db : DB) (conversation_id : Value)
    (before_timestamp : Nat) (page limit : Nat) : List MessageRow :=
  ((partitionFor db.messages conversation_id).filter
    (fun r => r.message_timestamp < before_timestamp)).take limit

end MessageModel

/-! ## `ConversationModel` (src/app/models/cassandra_models.py) -/

/-- The dict returned by `ConversationModel.create_or_get_conversation`. -/
structure ConversationResult where
  isNew : Bool
  conversation_id : String
  deriving DecidableEq, Repr

namespace ConversationModel

/-- `ConversationModel.create_or_get_conversation`: stringify and sort the two user
ids, derive the conversation id with `uuid.uuid5(uuid.NAMESPACE_DNS, ...)`, probe the
conversation's message partition with `LIMIT 1`, and report whether it is new.  No
validation of any kind is performed. -/
def create_or_get_conversation (db : DB) (user1_id user2_id : String) :
    ConversationResult :=
  let cid := deriveConversationId user1_id user2_id
  let rows := (partitionFor db.messages (.vUuid cid)).take 1
  { isNew := rows.isEmpty, conversation_id := uuidToString cid }

end ConversationModel

/-! ## `MessageController` (src/app/controllers/message_controller.py) -/

/-- Errors of the embedded layers: Python exceptions raised below the controller
(`KeyError` from a dict lookup, backend failures) and the `HTTPException` the
controller raises. -/
inductive AppError where
  | keyError (key : String) : AppError
  | storageUnavailable (msg : String) : AppError
  | validationError (msg : String) : AppError
  | notFound (msg : String) : AppError
  | httpException (status : Nat) (detail : String) : AppError
  deriving DecidableEq, Repr

/-- Python `str(e)` on the modelled exceptions (quote decoration of `KeyError`
rendering is abstracted away; no claim depends on it). -/
def errStr : AppError → String
  | .keyError k => k
  | .storageUnavailable m => m
  | .validationError m => m
  | .notFound m => m
  | .httpException _ d => d

/-- The `MessageResponse` schema projected by the controllers. -/
structure MessageResponse where
  id : Value
  sender_id : Value
  receiver_id : Value
  content : Value
  created_at : Value
  conversation_id : Value
  deriving DecidableEq, Repr

/-- The `PaginatedMessageResponse` schema built by the controllers. -/
structure PaginatedMessageResponse where
  total : Nat
  page : Nat
  limit : Nat
  data : List MessageResponse
  deriving DecidableEq, Repr

/-- The `MessageResponse(...)` construction in `MessageController.send_message`:
keyword values are evaluated left to right, so the first absent dict key raises
`KeyError` there. -/
def buildMessageResponse (result : List (String × Value)) :
    Except AppError MessageResponse :=
  match dictGet result "message_id" with
  | none => .error (.keyError "message_id")
  | some v_id =>
  match dictGet result "sender_id" with
  | none => .error (.keyError "sender_id")
  | some v_sender =>
  match dictGet result "receiver_id" with
  | none => .error (.keyError "receiver_id")
  | some v_receiver =>
  match dictGet result "content" with
  | none => .error (.keyError "content")
  | some v_content =>
  match dictGet result "created_at" with
  | none => .error (.keyError "created_at")
  | some v_created =>
  match dictGet result "conversation_id" with
  | none => .error (.keyError "conversation_id")
  | some v_conv =>
    .ok { id := v_id, sender_id := v_sender, receiver_id := v_receiver,
          content := v_content, created_at := v_created, conversation_id := v_conv }

namespace MessageController

/-- `MessageController.send_message`: the `try` block awaits the model call and then
builds a `MessageResponse` from the returned dict; any exception in either place is
caught and re-raised as `HTTPException(500, f"Message creation failed: {str(e)}")`.
The model outcome (which may itself carry a raised backend exception) is the
argument. -/
def send_message (modelOutcome : Except AppError (List (String × Value))) :
    Except AppError MessageResponse :=
  match modelOutcome with
  | .error e => .error (.httpException 500 ("Message creation failed: " ++ errStr e))
  | .ok result =>
    match buildMessageResponse result with
    | .error e => .error (.httpException 500 ("Message creation failed: " ++ errStr e))
    | .ok resp => .ok resp

end MessageController

/-- The dict view of a `SELECT *` row of `messages_by_conversation`: its columns
under their schema names. -/
def rowToDict (conversation_id : Value) (r : MessageRow) : List (String × Value) :=
  [("conversation_id", conversation_id),
   ("message_timestamp", .vTime r.message_timestamp),
   ("message_id", .vUuid r.message_id),
   ("sender_id", r.sender_id),
   ("recipient_id", r.recipient_id),
   ("context", r.context)]

/-- The list comprehension over rows in `MessageController.get_conversation_messages`:
the first row whose projection raises `KeyError` aborts the comprehension. -/
def projectRows : List (List (String × Value)) → Except AppError (List MessageResponse)
  | [] => .ok []
  | d :: rest =>
    match buildMessageResponse d with
    | .error e => .error e
    | .ok m =>
      match projectRows rest with
      | .error e => .error e
      | .ok ms => .ok (m :: ms)

namespace MessageController

/-- `MessageController.get_conversation_messages`: fetch rows from the model (passing
the `page` kwarg along, which the model ignores), project each row into a
`MessageResponse`, and answer `PaginatedMessageResponse(total=len(data), page, limit,
data)`; any exception is re-raised as `HTTPException(500, ...)`. -/
def get_conversation_messages (db : DB) (conversation_id : Value)
    (page limit : Nat) : Except AppError PaginatedMessageResponse :=
  match projectRows ((MessageModel.get_conversation_messages db conversation_id
      page limit).map (rowToDict conversation_id)) with
  | .error e =>
      .error (.httpException 500 ("Failed to retrieve conversation messages: " ++ errStr e))
  | .ok data =>
      .ok { total := data.length, page := page, limit := limit, data := data }

end MessageController

/-- The full send path: `MessageController.send_message` calls
`MessageModel.create_message(sender_id=..., receiver_id=..., content=...)`, so inside
the model `kwargs.get("conversation_id")`, `kwargs.get("recipient_id")` and
`kwargs.get("context")` all yield `None` — only `sender_id` arrives.  The returned
dict is then projected by the controller. -/
def sendMessageFacade (db : DB) (sender_id receiver_id content : Value)
    (msgId ts : Nat) : DB × Except AppError MessageResponse :=
  let r := MessageModel.create_message db .vNone sender_id .vNone .vNone msgId ts
  (r.1, MessageController.send_message (.ok r.2))

/-! ## Pagination harness (spec §4.2, §8): repeatedly fetch a page, then pass the
`created_at` of the oldest message of the page as the next `beforeTimestamp`. -/

/-- One page fetch: first page through `get_conversation_messages`, subsequent pages
through `get_messages_before_timestamp` with the cursor. -/
def fetchPage (db : DB) (c : Value) (k : Nat) : Option Nat → List MessageRow
  | none => MessageModel.get_conversation_messages db c 1 k
  | some b => MessageModel.get_messages_before_timestamp db c b 1 k

/-- Drive pagination to exhaustion, concatenating the pages; `fuel` bounds the number
of pages. -/
def paginateAll (db : DB) (c : Value) (k : Nat) : Nat → Option Nat → List MessageRow
  | 0, _ => []
  | fuel + 1, before =>
    let page := fetchPage db c k before
    match page.getLast? with
    | none => []
    | some lastRow => page ++ paginateAll db c k fuel (some lastRow.message_timestamp)

/-- The partition contents after appending a list of messages in order (each append is
`create_message`'s `INSERT` into the conversation partition). -/
def buildPartition (rows : List MessageRow) : List MessageRow :=
  rows.foldl (fun l r => insertRowBy MessageRow.message_timestamp r l) []

/-- Restriction of a partition by an optional strict timestamp upper bound. -/
def listBefore (l : List MessageRow) : Option Nat → List MessageRow
  | none => l
  | some b => l.filter (fun r => r.message_timestamp < b)

/-! ## Spec-modelled conditioned fan-out (for comparison with the code) -/

/-- Modelled from the spec: `ConversationIndex.onMessageAppended` (§4.3) as the spec
words it — one upsert per participant at key `(user_id, conversation_id)`, each
conditioned so that it only overwrites an existing entry if the incoming
`last_message_at` is not older than what is stored.  The repository has no such guard;
this definition exists solely to compare the code against the spec text. -/
def specConditionedEntryUpsert (conv : Value) (row : ConvUserRow)
    (p : List ConvUserRow) : List ConvUserRow :=
  if (p.filter (fun e => e.conversation_id = conv)).any
      (fun e => row.last_message_timestamp < e.last_message_timestamp)
  then p
  else insertRowBy ConvUserRow.last_message_timestamp row
    (p.filter (fun e => ¬ e.conversation_id = conv))

/-- Modelled from the spec: the two conditioned fan-out writes of
`ConversationIndex.onMessageAppended` applied to the per-user index table. -/
def specConditionedFanout (t : Table ConvUserRow) (conv sender_id recipient_id : Value)
    (context : Value) (ts : Nat) : Table ConvUserRow :=
  upsertPartition recipient_id
    (specConditionedEntryUpsert conv
      { last_message_timestamp := ts, conversation_id := conv,
        participant_id := sender_id, last_message_preview := context })
    (upsertPartition sender_id
      (specConditionedEntryUpsert conv
        { last_message_timestamp := ts, conversation_id := conv,
          participant_id := recipient_id, last_message_preview := context })
      t)

/-! ## Lemmas about the write path -/

theorem mem_insertRowBy {ρ : Type} (key : ρ → Nat) (r y : ρ) :
    ∀ l : List ρ, y ∈ insertRowBy key r l → y = r ∨ y ∈ l
  | [], h => by simpa [insertRowBy] using h
  | x :: xs, h => by
    by_cases h1 : key x < key r
    · simp only [insertRowBy, if_pos h1, List.mem_cons] at h ⊢
      tauto
    · by_cases h2 : key x = key r
      · simp only [insertRowBy, if_neg h1, if_pos h2, List.mem_cons] at h ⊢
        tauto
      · simp only [insertRowBy, if_neg h1, if_neg h2, List.mem_cons] at h ⊢
        rcases h with h | h
        · tauto
        · rcases mem_insertRowBy key r y xs h with h3 | h3 <;> tauto

theorem pairwise_insertRowBy {ρ : Type} (key : ρ → Nat) (r : ρ) :
    ∀ l : List ρ, l.Pairwise (fun a b => key b < key a) →
      (insertRowBy key r l).Pairwise (fun a b => key b < key a)
  | [], _ => by simp [insertRowBy]
  | x :: xs, h => by
    rw [List.pairwise_cons] at h
    obtain ⟨hx, hxs⟩ := h
    by_cases h1 : key x < key r
    · simp only [insertRowBy, if_pos h1]
      refine List.pairwise_cons.mpr ⟨?_, List.pairwise_cons.mpr ⟨hx, hxs⟩⟩
      intro y hy
      rcases List.mem_cons.mp hy with rfl | hy2
      · exact h1
      · exact lt_trans (hx y hy2) h1
    · by_cases h2 : key x = key r
      · simp only [insertRowBy, if_neg h1, if_pos h2]
        refine List.pairwise_cons.mpr ⟨?_, hxs⟩
        intro y hy
        rw [← h2]
        exact hx y hy
      · simp only [insertRowBy, if_neg h1, if_neg h2]
        refine List.pairwise_cons.mpr ⟨?_, pairwise_insertRowBy key r xs hxs⟩
        intro y hy
        rcases mem_insertRowBy key r y xs hy with rfl | hy2
        · omega
        · exact hx y hy2

theorem insertRowBy_perm {ρ : Type} (key : ρ → Nat) (r : ρ) :
    ∀ l : List ρ, key r ∉ l.map key →
      List.Perm (insertRowBy key r l) (r :: l)
  | [], _ => by simp [insertRowBy]
  | x :: xs, h => by
    simp only [List.map_cons, List.mem_cons, not_or] at h
    obtain ⟨hne, hnotin⟩ := h
    by_cases h1 : key x < key r
    · simp [insertRowBy, if_pos h1]
    · have h2 : ¬ key x = key r := fun e => hne e.symm
      simp only [insertRowBy, if_neg h1, if_neg h2]
      exact List.Perm.trans
        (List.Perm.cons x (insertRowBy_perm key r xs hnotin))
        (List.Perm.swap r x xs)

theorem insertRowBy_length_fresh {ρ : Type} (key : ρ → Nat) (r : ρ) (l : List ρ)
    (h : key r ∉ l.map key) : (insertRowBy key r l).length = l.length + 1 := by
  simpa using (insertRowBy_perm key r l h).length_eq

/-- The largest clustering timestamp stored in a partition (0 when empty). -/
def maxKey {ρ : Type} (key : ρ → Nat) (l : List ρ) : Nat :=
  l.foldr (fun r m => max (key r) m) 0

theorem maxKey_insertRowBy {ρ : Type} (key : ρ → Nat) (r : ρ) :
    ∀ l : List ρ, maxKey key (insertRowBy key r l) = max (key r) (maxKey key l)
  | [] => by simp [insertRowBy, maxKey]
  | x :: xs => by
    by_cases h1 : key x < key r
    · simp only [insertRowBy, if_pos h1, maxKey, List.foldr_cons]
    · by_cases h2 : key x = key r
      · simp only [insertRowBy, if_neg h1, if_pos h2, maxKey, List.foldr_cons]
        rw [h2]
        omega
      · simp only [insertRowBy, if_neg h1, if_neg h2, maxKey, List.foldr_cons]
        have hxs := maxKey_insertRowBy key r xs
        simp only [maxKey] at hxs
        rw [hxs]
        omega

theorem partitionFor_upsertPartition_self {ρ : Type} (k : Value) (f : List ρ → List ρ) :
    ∀ t : Table ρ, partitionFor (upsertPartition k f t) k = f (partitionFor t k)
  | [] => by simp [upsertPartition, partitionFor]
  | (k2, p) :: rest => by
    by_cases h : k2 = k
    · simp [upsertPartition, partitionFor, h]
    · simp [upsertPartition, partitionFor, h, partitionFor_upsertPartition_self k f rest]

theorem partitionFor_upsertPartition_ne {ρ : Type} (k key : Value) (f : List ρ → List ρ)
    (hne : k ≠ key) :
    ∀ t : Table ρ, partitionFor (upsertPartition k f t) key = partitionFor t key
  | [] => by simp [upsertPartition, partitionFor, hne]
  | (k2, p) :: rest => by
    by_cases h : k2 = k
    · subst h
      simp [upsertPartition, partitionFor, hne]
    · by_cases h3 : k2 = key
      · simp [upsertPartition, partitionFor, h, h3, Ne.symm hne]
      · simp [upsertPartition, partitionFor, h, h3,
          partitionFor_upsertPartition_ne k key f hne rest]

theorem pairwise_foldl_insert {ρ : Type} (key : ρ → Nat) :
    ∀ (rows acc : List ρ), acc.Pairwise (fun a b => key b < key a) →
      (rows.foldl (fun l r => insertRowBy key r l) acc).Pairwise
        (fun a b => key b < key a)
  | [], _, h => h
  | r :: rest, acc, h =>
      pairwise_foldl_insert key rest _ (pairwise_insertRowBy key r acc h)

theorem foldl_insert_perm {ρ : Type} (key : ρ → Nat) :
    ∀ (rows acc : List ρ), (rows.map key).Nodup →
      (∀ r ∈ rows, key r ∉ acc.map key) →
      List.Perm (rows.foldl (fun l r => insertRowBy key r l) acc) (rows ++ acc)
  | [], acc, _, _ => List.Perm.refl acc
  | r :: rest, acc, hnd, hfresh => by
    simp only [List.map_cons, List.nodup_cons] at hnd
    obtain ⟨hr, hndrest⟩ := hnd
    have hfr : key r ∉ acc.map key := hfresh r (List.mem_cons_self r rest)
    have hperm1 : List.Perm (insertRowBy key r acc) (r :: acc) :=
      insertRowBy_perm key r acc hfr
    have hfresh2 : ∀ s ∈ rest, key s ∉ (insertRowBy key r acc).map key := by
      intro s hs hmem
      have hsr : key s ∈ (r :: acc).map key := ((hperm1.map key).mem_iff).mp hmem
      simp only [List.map_cons, List.mem_cons] at hsr
      rcases hsr with h | h
      · exact hr (by rw [← h]; exact List.mem_map_of_mem key hs)
      · exact hfresh s (List.mem_cons_of_mem r hs) h
    have IH := foldl_insert_perm key rest (insertRowBy key r acc) hndrest hfresh2
    refine List.Perm.trans IH (List.Perm.trans (hperm1.append_left rest) ?_)
    exact List.perm_middle

theorem pairwise_last_min {α : Type} {R : α → α → Prop} (l : List α) (h : l ≠ [])
    (hp : l.Pairwise R) : ∀ x ∈ l, x = l.getLast h ∨ R x (l.getLast h) := by
  intro x hx
  have hsplit := List.dropLast_append_getLast h
  have hx2 : x ∈ l.dropLast ++ [l.getLast h] := by rw [hsplit]; exact hx
  have hp2 : (l.dropLast ++ [l.getLast h]).Pairwise R := by rw [hsplit]; exact hp
  rcases List.mem_append.mp hx2 with h1 | h1
  · right
    exact (List.pairwise_append.mp hp2).2.2 x h1 (l.getLast h) (List.mem_singleton_self _)
  · left
    exact List.mem_singleton.mp h1

theorem not_lt_last {ρ : Type} (key : ρ → Nat) (l : List ρ) (h : l ≠ [])
    (hp : l.Pairwise (fun a b => key b < key a)) :
    ∀ x ∈ l, ¬ key x < key (l.getLast h) := by
  intro x hx
  rcases pairwise_last_min l h hp x hx with rfl | hlt
  · omega
  · omega

/-! ## Lemmas about the Python string comparison -/

theorem pyCharsLt_asymm : ∀ l1 l2, pyCharsLt l1 l2 = true → pyCharsLt l2 l1 = false
  | [], [], h => by simpa [pyCharsLt] using h
  | [], _ :: _, _ => by simp [pyCharsLt]
  | _ :: _, [], h => by simpa [pyCharsLt] using h
  | c1 :: r1, c2 :: r2, h => by
    simp only [pyCharsLt] at h ⊢
    by_cases h1 : c1.toNat < c2.toNat
    · rw [if_neg (by omega), if_pos h1]
    · rw [if_neg h1] at h
      by_cases h2 : c2.toNat < c1.toNat
      · rw [if_pos h2] at h
        exact absurd h (by simp)
      · rw [if_neg h2] at h
        rw [if_neg h2, if_neg h1]
        exact pyCharsLt_asymm r1 r2 h

theorem pyCharsLt_eq_of_not : ∀ l1 l2, pyCharsLt l1 l2 = false →
    pyCharsLt l2 l1 = false → l1 = l2
  | [], [], _, _ => rfl
  | [], _ :: _, h, _ => by simpa [pyCharsLt] using h
  | _ :: _, [], _, h2 => by simpa [pyCharsLt] using h2
  | c1 :: r1, c2 :: r2, h, h2 => by
    simp only [pyCharsLt] at h h2
    by_cases ha : c1.toNat < c2.toNat
    · rw [if_pos ha] at h
      exact absurd h (by simp)
    · by_cases hb : c2.toNat < c1.toNat
      · rw [if_pos hb] at h2
        exact absurd h2 (by simp)
      · rw [if_neg ha, if_neg hb] at h
        rw [if_neg hb, if_neg ha] at h2
        have hc : c1 = c2 := by
          have hn : c1.toNat = c2.toNat := by omega
          have hv : c1.val = c2.val := by
            unfold Char.toNat at hn
            exact UInt32.toNat.inj hn
          exact Char.eq_of_val_eq hv
        rw [hc, pyCharsLt_eq_of_not r1 r2 h h2]

theorem pyCharsLt_irrefl : ∀ l : List Char, pyCharsLt l l = false
  | [] => rfl
  | c :: r => by
    simp only [pyCharsLt]
    rw [if_neg (lt_irrefl c.toNat), if_neg (lt_irrefl c.toNat)]
    exact pyCharsLt_irrefl r

theorem sort2_self (a : String) : sort2 a a = (a, a) := by
  unfold sort2
  rw [if_neg (by simp [pyStrLt, pyCharsLt_irrefl])]

theorem sort2_comm (a b : String) : sort2 a b = sort2 b a := by
  unfold sort2
  by_cases hba : pyStrLt b a = true
  · have hab : pyStrLt a b = false := pyCharsLt_asymm b.data a.data hba
    rw [if_pos hba, if_neg (by simp [hab])]
  · by_cases hab : pyStrLt a b = true
    · rw [if_neg hba, if_pos hab]
    · have hd : a.data = b.data :=
        pyCharsLt_eq_of_not a.data b.data (by simpa using hab) (by simpa using hba)
      have hae : a = b := by
        cases a
        cases b
        exact congrArg String.mk hd
      rw [hae]

/-! ## The pagination lemma -/

theorem fetchPage_single (c : Value) (part : List MessageRow) (k : Nat)
    (before : Option Nat) :
    fetchPage ⟨[(c, part)], []⟩ c k before = (listBefore part before).take k := by
  cases before <;>
    simp [fetchPage, MessageModel.get_conversation_messages,
      MessageModel.get_messages_before_timestamp, listBefore, partitionFor]

theorem paginate_exact (c : Value) (part : List MessageRow) (k : Nat) (hk : 1 ≤ k)
    (hp : part.Pairwise (fun a b => b.message_timestamp < a.message_timestamp)) :
    ∀ (fuel : Nat) (before : Option Nat),
      (listBefore part before).length ≤ fuel →
      paginateAll ⟨[(c, part)], []⟩ c k fuel before = listBefore part before := by
  intro fuel
  induction fuel with
  | zero =>
    intro before hlen
    have hnil : listBefore part before = [] :=
      List.eq_nil_of_length_eq_zero (Nat.le_zero.mp hlen)
    simp [paginateAll, hnil]
  | succ fuel ih =>
    intro before hlen
    by_cases hnil : listBefore part before = []
    · simp [paginateAll, fetchPage_single, hnil]
    · have hrempair : (listBefore part before).Pairwise
          (fun a b => b.message_timestamp < a.message_timestamp) := by
        cases before with
        | none => exact hp
        | some b => exact hp.filter _
      have hpg : (listBefore part before).take k ≠ [] := by
        cases k with
        | zero => omega
        | succ k2 =>
          cases hcase : listBefore part before with
          | nil => exact absurd hcase hnil
          | cons a as => simp [hcase]
      have hsplit : (listBefore part before).take k ++ (listBefore part before).drop k
          = listBefore part before := List.take_append_drop k _
      have hpagepair : ((listBefore part before).take k).Pairwise
          (fun a b => b.message_timestamp < a.message_timestamp) :=
        hrempair.sublist (List.take_sublist k _)
      have hlastmem : ((listBefore part before).take k).getLast hpg
          ∈ (listBefore part before).take k := List.getLast_mem hpg
      have hpa : ((listBefore part before).take k
          ++ (listBefore part before).drop k).Pairwise
          (fun a b => b.message_timestamp < a.message_timestamp) := by
        rw [hsplit]; exact hrempair
      have hcross := (List.pairwise_append.mp hpa).2.2
      -- generalize the cursor value so later rewrites do not touch dependent proofs
      obtain ⟨lastTs, hlastTs⟩ :
          ∃ t, (((listBefore part before).take k).getLast hpg).message_timestamp = t :=
        ⟨_, rfl⟩
      -- the filter below the new cursor picks out exactly the dropped suffix
      have h1 : ((listBefore part before).take k).filter
          (fun r => r.message_timestamp < lastTs) = [] := by
        refine List.filter_eq_nil_iff.mpr ?_
        intro a ha
        have := not_lt_last MessageRow.message_timestamp _ hpg hpagepair a ha
        rw [hlastTs] at this
        simpa using this
      have h2 : ((listBefore part before).drop k).filter
          (fun r => r.message_timestamp < lastTs) = (listBefore part before).drop k := by
        refine List.filter_eq_self.mpr ?_
        intro a ha
        have := hcross _ hlastmem a ha
        rw [hlastTs] at this
        simpa using this
      have hfilter_rem : (listBefore part before).filter
          (fun r => r.message_timestamp < lastTs) = (listBefore part before).drop k := by
        have happ : ((listBefore part before).take k
            ++ (listBefore part before).drop k).filter
            (fun r => r.message_timestamp < lastTs) = (listBefore part before).drop k := by
          rw [List.filter_append, h1, h2, List.nil_append]
        rw [hsplit] at happ
        exact happ
      have hfilter_part : listBefore part (some lastTs)
          = (listBefore part before).filter
            (fun r => r.message_timestamp < lastTs) := by
        cases before with
        | none => rfl
        | some b =>
          have hlastb : lastTs < b := by
            have hmem : ((listBefore part (some b)).take k).getLast hpg
                ∈ listBefore part (some b) :=
              (List.take_sublist k _).mem hlastmem
            have := (List.mem_filter.mp hmem).2
            rw [hlastTs] at this
            simpa using this
          show part.filter _ = _
          rw [show listBefore part (some b)
              = part.filter (fun r => r.message_timestamp < b) from rfl,
            List.filter_filter]
          refine (List.filter_congr ?_).symm
          intro a _
          by_cases hpa2 : a.message_timestamp < lastTs
          · simp [hpa2, lt_trans hpa2 hlastb]
          · simp [hpa2]
      have hlen2 : (listBefore part (some lastTs)).length ≤ fuel := by
        rw [hfilter_part, hfilter_rem]
        have hlenpage : 1 ≤ ((listBefore part before).take k).length :=
          List.length_pos.mpr hpg
        have hlensum := congrArg List.length hsplit
        simp only [List.length_append] at hlensum
        omega
      have hih := ih (some lastTs) hlen2
      simp only [paginateAll, fetchPage_single, List.getLast?_eq_getLast _ hpg]
      rw [hlastTs, hih, hfilter_part, hfilter_rem, hsplit]

/-! ## Claim theorems -/

/-- Concrete messages with the same `created_at` but distinct `message_id`, used to
exhibit the timestamp-collision overwrite. -/
def c1m1 : MessageRow := ⟨5, 100, .vNat 1, .vNat 2, .vStr "first"⟩

/-- Second message of the colliding pair. -/
def c1m2 : MessageRow := ⟨5, 200, .vNat 2, .vNat 1, .vStr "second"⟩

/-- C1 (counterexample): the schema keys the conversation partition on
`message_timestamp` alone (`PRIMARY KEY ((conversation_id), message_timestamp)`), so
appending two messages that share `created_at` makes the second replace the first;
paginating afterwards returns one message, not two — the claimed
`(created_at desc, message_id asc)` total order with `message_id` tie-break does not
hold and such an append sequence is not enumerated completely. -/
theorem c1_counterexample :
    c1m1 ≠ c1m2
    ∧ buildPartition [c1m1, c1m2] = [c1m2]
    ∧ paginateAll ⟨[(.vNat 7, buildPartition [c1m1, c1m2])], []⟩ (.vNat 7) 10 2 none
        = [c1m2]
    ∧ c1m1 ∉ paginateAll ⟨[(.vNat 7, buildPartition [c1m1, c1m2])], []⟩ (.vNat 7) 10 2 none := by
  refine ⟨by decide, by decide, by decide, by decide⟩

/-- C1 (amended): rows of a conversation partition are ordered by `created_at`
(`message_timestamp`) descending alone — `message_id` is not part of the key.  For
any sequence of appended messages with pairwise-distinct timestamps and any page size
of at least 1, paginating with decreasing `beforeTimestamp` cursors (the `created_at`
of the oldest row of each page) and concatenating the pages yields exactly the
appended messages, each exactly once, in descending-`created_at` order — no
duplicates, no gaps. -/
theorem c1_pagination_complete (rows : List MessageRow) (c : Value) (k fuel : Nat)
    (hk : 1 ≤ k)
    (hnd : (rows.map MessageRow.message_timestamp).Nodup)
    (hfuel : rows.length ≤ fuel) :
    paginateAll ⟨[(c, buildPartition rows)], []⟩ c k fuel none = buildPartition rows
    ∧ List.Perm (buildPartition rows) rows
    ∧ (buildPartition rows).Pairwise
        (fun a b => b.message_timestamp < a.message_timestamp) := by
  have hperm : List.Perm (buildPartition rows) rows := by
    have hp := foldl_insert_perm MessageRow.message_timestamp rows [] hnd (by simp)
    simpa [buildPartition] using hp
  have hpair : (buildPartition rows).Pairwise
      (fun a b => b.message_timestamp < a.message_timestamp) := by
    have hp := pairwise_foldl_insert MessageRow.message_timestamp rows []
      List.Pairwise.nil
    simpa [buildPartition] using hp
  have hlen : (listBefore (buildPartition rows) none).length ≤ fuel := by
    show (buildPartition rows).length ≤ fuel
    rw [hperm.length_eq]
    exact hfuel
  exact ⟨paginate_exact c (buildPartition rows) k hk hpair fuel none hlen, hperm, hpair⟩

/-- Distinct-timestamp messages for the C1 witness. -/
def c1Rows : List MessageRow :=
  [⟨3, 10, .vNat 1, .vNat 2, .vStr "m3"⟩,
   ⟨1, 11, .vNat 2, .vNat 1, .vStr "m1"⟩,
   ⟨2, 12, .vNat 1, .vNat 2, .vStr "m2"⟩]

/-- Witness for the amended C1 theorem at a concrete append sequence. -/
theorem c1_pagination_complete_witness :
    (1 ≤ 2
      ∧ (c1Rows.map MessageRow.message_timestamp).Nodup
      ∧ c1Rows.length ≤ 3)
    ∧ (paginateAll ⟨[(.vNat 7, buildPartition c1Rows)], []⟩ (.vNat 7) 2 3 none
          = buildPartition c1Rows
        ∧ List.Perm (buildPartition c1Rows) c1Rows
        ∧ (buildPartition c1Rows).Pairwise
            (fun a b => b.message_timestamp < a.message_timestamp)) :=
  ⟨⟨by decide, by decide, by decide⟩,
   c1_pagination_complete c1Rows (.vNat 7) 2 3 (by decide) (by decide) (by decide)⟩

/-- C4: the derived conversation identifier is symmetric in its two arguments —
`create_or_get_conversation` sorts the stringified ids before hashing, so
`derive(A,B) = derive(B,A)` for every pair of distinct identifiers. -/
theorem c4_derive_comm (a b : String) (h : a ≠ b) :
    deriveConversationId a b = deriveConversationId b a := by
  unfold deriveConversationId
  rw [sort2_comm]

/-- Witness for C4 at a concrete pair of distinct identifiers. -/
theorem c4_derive_comm_witness :
    ("1" : String) ≠ "2"
    ∧ deriveConversationId "1" "2" = deriveConversationId "2" "1" :=
  ⟨by decide, c4_derive_comm "1" "2" (by decide)⟩

set_option maxRecDepth 100000 in
/-- C5 (counterexample): calling `create_or_get_conversation` on the self-pair
`("1","1")` does not fail — it derives and returns the concrete conversation
identifier `uuid5(NAMESPACE_DNS, "1-1")`, so self-conversations are not rejected and
an identifier is produced. -/
theorem c5_counterexample :
    ConversationModel.create_or_get_conversation emptyDB "1" "1"
      = { isNew := true,
          conversation_id := "4a426d86-eae0-53be-8f9a-8113ffc5a445" } := by
  decide

/-- C5 (amended): `create_or_get_conversation` performs no validation at all — for
every identifier `A` the self-pair `(A, A)` succeeds and yields the identifier
`uuid5(NAMESPACE_DNS, A ++ "-" ++ A)`; no `ValidationError` exists anywhere in the
code path (the spec itself notes self-rejection as a rule still to be added). -/
theorem c5_self_pair_no_validation (db : DB) (a : String) :
    ConversationModel.create_or_get_conversation db a a
      = { isNew := ((partitionFor db.messages
              (.vUuid (uuid5 NAMESPACE_DNS (a ++ "-" ++ a)))).take 1).isEmpty,
          conversation_id := uuidToString (uuid5 NAMESPACE_DNS (a ++ "-" ++ a)) } := by
  unfold ConversationModel.create_or_get_conversation deriveConversationId
  rw [sort2_self]

/-- C6: `get_messages_before_timestamp` restricts to `created_at < beforeTimestamp`
strictly, and when every stored row is at or after the bound the result is the empty
page, not an error. -/
theorem c6_before_timestamp_strict (db : DB) (conv : Value) (before page limit : Nat) :
    (∀ r ∈ MessageModel.get_messages_before_timestamp db conv before page limit,
      r.message_timestamp < before)
    ∧ ((∀ r ∈ partitionFor db.messages conv, before ≤ r.message_timestamp) →
        MessageModel.get_messages_before_timestamp db conv before page limit = []) := by
  constructor
  · intro r hr
    have hr2 : r ∈ (partitionFor db.messages conv).filter
        (fun r => r.message_timestamp < before) :=
      (List.take_sublist limit _).mem hr
    simpa using (List.mem_filter.mp hr2).2
  · intro h
    unfold MessageModel.get_messages_before_timestamp
    rw [List.filter_eq_nil_iff.mpr (fun r hr => by simpa using Nat.not_lt.mpr (h r hr))]
    simp

/-- A two-message conversation store for the C6 witness. -/
def c6DB : DB :=
  ⟨[(.vNat 3, [⟨9, 1, .vNat 1, .vNat 2, .vStr "x"⟩,
               ⟨5, 2, .vNat 2, .vNat 1, .vStr "y"⟩])], []⟩

/-- Witness for C6: with the bound above both rows one row is returned and is
strictly older than the bound; with the bound at the oldest row the page is empty. -/
theorem c6_before_timestamp_strict_witness :
    (⟨9, 1, .vNat 1, .vNat 2, .vStr "x"⟩ : MessageRow).message_timestamp < 10
    ∧ MessageModel.get_messages_before_timestamp c6DB (.vNat 3) 5 1 10 = [] :=
  ⟨(c6_before_timestamp_strict c6DB (.vNat 3) 10 1 10).1 _ (by decide),
   (c6_before_timestamp_strict c6DB (.vNat 3) 5 1 10).2 (by decide)⟩

/-- Index state after a first message (timestamp 1) between users 1 and 2. -/
def c2DB1 : DB :=
  (MessageModel.create_message emptyDB (.vNat 9) (.vNat 1) (.vNat 2)
    (.vStr "hello") 101 1).1

/-- Index state after a second, later message (timestamp 2) in the same
conversation. -/
def c2DB2 : DB :=
  (MessageModel.create_message c2DB1 (.vNat 9) (.vNat 1) (.vNat 2)
    (.vStr "again") 102 2).1

/-- C2 (counterexample): after two messages in one conversation the per-user index
holds two rows for that conversation in each participant's partition — four in all,
not the claimed exactly-two — because `conversations_by_user` is keyed by
`(user_id, last_message_timestamp)` and each write with a fresh timestamp appends
instead of replacing. -/
theorem c2_counterexample :
    (partitionFor c2DB2.messages (.vNat 9)).length = 2
    ∧ ((partitionFor c2DB2.convByUser (.vNat 1)).filter
        (fun e => e.conversation_id = .vNat 9)).length = 2
    ∧ ((partitionFor c2DB2.convByUser (.vNat 2)).filter
        (fun e => e.conversation_id = .vNat 9)).length = 2 := by
  refine ⟨by decide, by decide, by decide⟩

/-- C2 (amended): `create_message` fans out one plain `INSERT` per participant keyed
by `(user_id, last_message_timestamp)`, not an upsert at `(user_id,
conversation_id)`: whenever the message's timestamp is not already present in a
participant's index partition the write appends a fresh row, so each participant
accumulates one index row per distinct message timestamp (exactly two rows total per
conversation only while a single message timestamp exists). -/
theorem c2_index_rows_accumulate (db : DB) (conv sender recipient context : Value)
    (msgId ts : Nat)
    (h1 : sender ≠ recipient)
    (h2 : ts ∉ (partitionFor db.convByUser sender).map ConvUserRow.last_message_timestamp)
    (h3 : ts ∉ (partitionFor db.convByUser recipient).map
      ConvUserRow.last_message_timestamp) :
    (partitionFor (MessageModel.create_message db conv sender recipient context
        msgId ts).1.convByUser sender).length
      = (partitionFor db.convByUser sender).length + 1
    ∧ (partitionFor (MessageModel.create_message db conv sender recipient context
        msgId ts).1.convByUser recipient).length
      = (partitionFor db.convByUser recipient).length + 1 := by
  constructor
  · have hA : partitionFor (MessageModel.create_message db conv sender recipient context
        msgId ts).1.convByUser sender
        = insertRowBy ConvUserRow.last_message_timestamp
            ⟨ts, conv, recipient, context⟩ (partitionFor db.convByUser sender) := by
      simp only [MessageModel.create_message]
      rw [partitionFor_upsertPartition_ne recipient sender _ (Ne.symm h1),
        partitionFor_upsertPartition_self sender _ db.convByUser]
    rw [hA, insertRowBy_length_fresh _ _ _ h2]
  · have hB : partitionFor (MessageModel.create_message db conv sender recipient context
        msgId ts).1.convByUser recipient
        = insertRowBy ConvUserRow.last_message_timestamp
            ⟨ts, conv, sender, context⟩ (partitionFor db.convByUser recipient) := by
      simp only [MessageModel.create_message]
      rw [partitionFor_upsertPartition_self recipient _ _,
        partitionFor_upsertPartition_ne sender recipient _ h1]
    rw [hB, insertRowBy_length_fresh _ _ _ h3]

/-- Witness for the amended C2 theorem at a first message on an empty store. -/
theorem c2_index_rows_accumulate_witness :
    ((.vNat 1 : Value) ≠ .vNat 2
      ∧ 5 ∉ (partitionFor emptyDB.convByUser (.vNat 1)).map
          ConvUserRow.last_message_timestamp
      ∧ 5 ∉ (partitionFor emptyDB.convByUser (.vNat 2)).map
          ConvUserRow.last_message_timestamp)
    ∧ ((partitionFor (MessageModel.create_message emptyDB (.vNat 9) (.vNat 1) (.vNat 2)
          (.vStr "hi") 101 5).1.convByUser (.vNat 1)).length
        = (partitionFor emptyDB.convByUser (.vNat 1)).length + 1
      ∧ (partitionFor (MessageModel.create_message emptyDB (.vNat 9) (.vNat 1) (.vNat 2)
          (.vStr "hi") 101 5).1.convByUser (.vNat 2)).length
        = (partitionFor emptyDB.convByUser (.vNat 2)).length + 1) :=
  ⟨⟨by decide, by decide, by decide⟩,
   c2_index_rows_accumulate emptyDB (.vNat 9) (.vNat 1) (.vNat 2) (.vStr "hi") 101 5
     (by decide) (by decide) (by decide)⟩

/-- C3 (code bug): the controller calls the model with kwargs `sender_id`,
`receiver_id`, `content` while the model reads `recipient_id`, `context`,
`conversation_id` and returns a dict with keys `recipient_id`/`context`/`timestamp`;
the controller then looks up `receiver_id` (then `content`, `created_at`), raising
`KeyError`, which the `except` block converts into `HTTPException(500, ...)`.  Every
`sendMessage` call therefore fails instead of returning the created message, and the
conversation id is never derived (it stays `None`). -/
theorem c3_send_message_always_fails (db : DB) (sender receiver content : Value)
    (msgId ts : Nat) :
    (sendMessageFacade db sender receiver content msgId ts).2
      = .error (.httpException 500 "Message creation failed: receiver_id") := rfl

/-- C7: the numeric page parameter is never used for skip/offset — the model reads
only `conversation_id` and `limit`, so two calls differing only in the page number
return the same rows (and the same row count). -/
theorem c7_page_ignored (db : DB) (conv : Value) (p1 p2 limit : Nat) :
    (MessageController.get_conversation_messages db conv p1 limit).map
        PaginatedMessageResponse.data
      = (MessageController.get_conversation_messages db conv p2 limit).map
        PaginatedMessageResponse.data
    ∧ (MessageController.get_conversation_messages db conv p1 limit).map
        PaginatedMessageResponse.total
      = (MessageController.get_conversation_messages db conv p2 limit).map
        PaginatedMessageResponse.total := by
  unfold MessageController.get_conversation_messages
    MessageModel.get_conversation_messages
  cases hpr : projectRows (((partitionFor db.messages conv).take limit).map
      (rowToDict conv)) <;>
    simp [hpr, Except.map]

/-- The existing newest index entry used in the C8 counterexample. -/
def c8Entry5A : ConvUserRow := ⟨5, .vNat 9, .vNat 2, .vStr "newer"⟩

/-- The symmetric entry stored for the other participant. -/
def c8Entry5B : ConvUserRow := ⟨5, .vNat 9, .vNat 1, .vStr "newer"⟩

/-- A store whose index already reflects a message at timestamp 5. -/
def c8DB : DB := ⟨[], [(.vNat 1, [c8Entry5A]), (.vNat 2, [c8Entry5B])]⟩

/-- C8 (counterexample): replaying an older message (timestamp 3) through
`create_message` is not conditioned on the stored timestamp: the code adds a stale
row to the participant's index partition, whereas the spec's conditioned upsert
(modelled by `specConditionedFanout`) leaves the entry untouched — the fan-out write
is not the guarded compare-on-write the claim describes. -/
theorem c8_counterexample :
    partitionFor (MessageModel.create_message c8DB (.vNat 9) (.vNat 1) (.vNat 2)
        (.vStr "older") 50 3).1.convByUser (.vNat 1)
      = [c8Entry5A, ⟨3, .vNat 9, .vNat 2, .vStr "older"⟩]
    ∧ partitionFor (specConditionedFanout c8DB.convByUser (.vNat 9) (.vNat 1) (.vNat 2)
        (.vStr "older") 3) (.vNat 1)
      = [c8Entry5A]
    ∧ partitionFor (MessageModel.create_message c8DB (.vNat 9) (.vNat 1) (.vNat 2)
        (.vStr "older") 50 3).1.convByUser (.vNat 1)
      ≠ partitionFor (specConditionedFanout c8DB.convByUser (.vNat 9) (.vNat 1) (.vNat 2)
        (.vStr "older") 3) (.vNat 1) := by
  refine ⟨by decide, by decide, by decide⟩

/-- C8 (amended): the fan-out writes are unconditional `INSERT`s keyed by
`(user_id, last_message_timestamp)`.  Because the key contains the timestamp, an
out-of-order write lands as an additional stale row rather than replacing the newest
entry, and the maximum stored `last_message_at` of every user partition never
decreases across any `create_message` call. -/
theorem c8_max_timestamp_monotone (db : DB) (conv sender recipient context : Value)
    (msgId ts : Nat) (u : Value) :
    maxKey ConvUserRow.last_message_timestamp (partitionFor db.convByUser u)
      ≤ maxKey ConvUserRow.last_message_timestamp
          (partitionFor (MessageModel.create_message db conv sender recipient context
            msgId ts).1.convByUser u) := by
  simp only [MessageModel.create_message]
  by_cases hur : u = recipient
  · subst hur
    rw [partitionFor_upsertPartition_self, maxKey_insertRowBy]
    by_cases hus : u = sender
    · subst hus
      rw [partitionFor_upsertPartition_self, maxKey_insertRowBy]
      omega
    · rw [partitionFor_upsertPartition_ne sender u _ (fun e => hus e.symm)]
      omega
  · rw [partitionFor_upsertPartition_ne recipient u _ (fun e => hur e.symm)]
    by_cases hus : u = sender
    · subst hus
      rw [partitionFor_upsertPartition_self, maxKey_insertRowBy]
      omega
    · rw [partitionFor_upsertPartition_ne sender u _ (fun e => hus e.symm)]

/-- C9 (counterexample): a typed component error (`StorageUnavailable`) raised below
the facade is not passed upward unchanged — `send_message` catches it and re-raises
`HTTPException(500, "Message creation failed: ...")`, a different error kind. -/
theorem c9_counterexample :
    MessageController.send_message (.error (.storageUnavailable "backend down"))
      = .error (.httpException 500 "Message creation failed: backend down")
    ∧ MessageController.send_message (.error (.storageUnavailable "backend down"))
      ≠ .error (.storageUnavailable "backend down") := by
  refine ⟨rfl, fun hcontra => ?_⟩
  exact absurd (Except.error.inj hcontra) (by decide)

/-- C9 (amended): the facade swallows every component-level error and reinterprets it
as a generic `HTTPException` with status 500 whose detail embeds the original message
as a string — no error passes upward unchanged. -/
theorem c9_error_reinterpreted (e : AppError) :
    MessageController.send_message (.error e)
      = .error (.httpException 500 ("Message creation failed: " ++ errStr e)) := rfl

/-- C10: whenever the message-listing controller returns a paginated response, its
`total` field equals the length of the returned page's data list (it is
`len(data)`), not the number of messages stored in the conversation. -/
theorem c10_total_eq_page_length (db : DB) (conv : Value) (page limit : Nat)
    (resp : PaginatedMessageResponse)
    (h : MessageController.get_conversation_messages db conv page limit = .ok resp) :
    resp.total = resp.data.length := by
  unfold MessageController.get_conversation_messages at h
  cases hpr : projectRows ((MessageModel.get_conversation_messages db conv page
      limit).map (rowToDict conv)) with
  | error e =>
    rw [hpr] at h
    exact absurd h (by simp)
  | ok data =>
    rw [hpr] at h
    simp only [Except.ok.injEq] at h
    rw [← h]

/-- Witness for C10 at a concrete empty conversation. -/
theorem c10_total_eq_page_length_witness :
    ({ total := 0, page := 1, limit := 10, data := [] } : PaginatedMessageResponse).total
      = ({ total := 0, page := 1, limit := 10,
           data := [] } : PaginatedMessageResponse).data.length :=
  c10_total_eq_page_length emptyDB (.vNat 1) 1 10 _ rfl

end FbMessenger
